import Mathlib

set_option maxRecDepth 100000

/-!
Verification development for the natural-language → SQL query pipeline
(`DataQuerySystem` in `aa.py`).  The pure, decision-making parts of the
program are embedded shallowly over `List Char`:

* the regular-expression search used to extract a query from the model
  completion (`generate_sql_query`, lines 153–165),
* the post-processing rewrite of a wildcard projection (lines 157–159),
* the validation / execution gate (`execute_query`, lines 171–184),
* the prompt construction (lines 119–140),
* the per-request control flow of `main` (lines 262–280),
* the CSV ingestion normalizations (`load_csv_to_sqlite`, lines 77–103).

Characters are modelled at the ASCII level (all string constants in the
program are ASCII): Python `str.upper`/`str.lower` become `Char.toUpper`/
`Char.toLower`, Python whitespace (for `str.strip` and the regex class
`\s`) is the six ASCII whitespace characters, and `\d` is `0`–`9`.
-/

/-- Python whitespace characters (the ASCII members of `\s` and of the
default `str.strip` set): space, tab, newline, carriage return,
vertical tab, form feed. -/
def isPyWs (c : Char) : Bool :=
  c == ' ' || c == '\t' || c == '\n' || c == '\r' || c == '\x0b' || c == '\x0c'

/-- Python `str.lower()` on ASCII text. -/
def strLower (s : List Char) : List Char := s.map Char.toLower

/-- Python `str.upper()` on ASCII text. -/
def strUpper (s : List Char) : List Char := s.map Char.toUpper

/-- Exact (case-sensitive) prefix test, Python `str.startswith`. -/
def startsWithL : List Char → List Char → Bool
  | [], _ => true
  | _ :: _, [] => false
  | p :: ps, c :: cs => p == c && startsWithL ps cs

/-- Python substring membership `pat in s`. -/
def containsL (pat : List Char) : List Char → Bool
  | [] => startsWithL pat []
  | c :: rest => startsWithL pat (c :: rest) || containsL pat rest

/-- Python `str.strip()`: drop leading and trailing whitespace. -/
def pyStrip (s : List Char) : List Char :=
  ((s.dropWhile isPyWs).reverse.dropWhile isPyWs).reverse

/-- Fuel-indexed worker for Python `str.replace(pat, rep)`: scan left to
right, replacing non-overlapping occurrences.  The fuel is the length of
the scanned text; each step consumes at least one character, so
`fuel = s.length` always suffices. -/
def replaceAllF (pat rep : List Char) : Nat → List Char → List Char
  | _, [] => []
  | 0, s => s
  | f + 1, c :: rest =>
    if startsWithL pat (c :: rest) && !pat.isEmpty then
      rep ++ replaceAllF pat rep f (List.drop (pat.length - 1) rest)
    else
      c :: replaceAllF pat rep f rest

/-- Python `s.replace(pat, rep)` for a non-empty pattern (the only way
the program calls it). -/
def replaceAll (pat rep s : List Char) : List Char :=
  replaceAllF pat rep s.length s

/-! ### The extraction regex

`generate_sql_query` (line 153) extracts a query with

  re.search(r'(SELECT\s+.*?\s+FROM\s+.*?(?:\s+WHERE\s+.*?)?(?:\s+ORDER BY\s+.*?)?(?:\s+LIMIT\s+\d+)?)(?=\n|$)',
            generated_text, re.IGNORECASE)

We embed exactly the constructs this pattern uses, with Python's
backtracking order: literals compared case-insensitively, greedy `\s+`
and `\d+` (longest first), lazy `.*?` (shortest first, `.` excludes
newline), greedy optional groups (present before absent), and the
lookahead `(?=\n|$)`, which in Python (no MULTILINE) holds exactly when
the next character is a newline or the position is the end of the text. -/

inductive RE where
  | lit : List Char → RE
  | wsPlus : RE
  | digPlus : RE
  | lazyStar : RE
  | opt : RE → RE
  | seq : RE → RE → RE

/-- Case-insensitive literal prefix test (`re.IGNORECASE`). -/
def ciStarts : List Char → List Char → Bool
  | [], _ => true
  | _ :: _, [] => false
  | p :: ps, c :: cs => p.toLower == c.toLower && ciStarts ps cs

/-- Backtracking continuation for the tail of a greedy `\s+`: prefer
consuming more whitespace, fall back to stopping here. -/
def wsMore (k : List Char → Option (List Char)) : List Char → Option (List Char)
  | [] => k []
  | c :: rest =>
    if isPyWs c then
      match wsMore k rest with
      | some r => some r
      | none => k (c :: rest)
    else k (c :: rest)

/-- Backtracking continuation for the tail of a greedy `\d+`. -/
def digMore (k : List Char → Option (List Char)) : List Char → Option (List Char)
  | [] => k []
  | c :: rest =>
    if c.isDigit then
      match digMore k rest with
      | some r => some r
      | none => k (c :: rest)
    else k (c :: rest)

/-- Lazy `.*?`: first try the continuation at the current position, then
consume one (non-newline) character and repeat. -/
def lzStar (k : List Char → Option (List Char)) : List Char → Option (List Char)
  | [] => k []
  | c :: rest =>
    match k (c :: rest) with
    | some r => some r
    | none => if c = '\n' then none else lzStar k rest

/-- The backtracking matcher.  `mch r s k` tries every way `r` can match
a prefix of `s`, in Python's preference order, calling `k` on the
remaining suffix; the first success wins. -/
def mch : RE → List Char → (List Char → Option (List Char)) → Option (List Char)
  | .lit cs, s, k => if ciStarts cs s then k (s.drop cs.length) else none
  | .wsPlus, s, k =>
    match s with
    | c :: rest => if isPyWs c then wsMore k rest else none
    | [] => none
  | .digPlus, s, k =>
    match s with
    | c :: rest => if c.isDigit then digMore k rest else none
    | [] => none
  | .lazyStar, s, k => lzStar k s
  | .opt r, s, k =>
    match mch r s k with
    | some res => some res
    | none => k s
  | .seq r1 r2, s, k => mch r1 s (fun s2 => mch r2 s2 k)

def kwSelect : List Char := "SELECT".data
def kwFrom : List Char := "FROM".data
def kwWhere : List Char := "WHERE".data
def kwOrderBy : List Char := "ORDER BY".data
def kwLimit : List Char := "LIMIT".data

/-- The pattern of line 153, group 1 (the part before the lookahead). -/
def sqlPattern : RE :=
  .seq (.lit kwSelect) (.seq .wsPlus (.seq .lazyStar (.seq .wsPlus
    (.seq (.lit kwFrom) (.seq .wsPlus (.seq .lazyStar
      (.seq (.opt (.seq .wsPlus (.seq (.lit kwWhere) (.seq .wsPlus .lazyStar))))
        (.seq (.opt (.seq .wsPlus (.seq (.lit kwOrderBy) (.seq .wsPlus .lazyStar))))
          (.opt (.seq .wsPlus (.seq (.lit kwLimit) (.seq .wsPlus .digPlus))))))))))))

/-- The lookahead `(?=\n|$)`: succeed (consuming nothing) iff at the end
of the text or just before a newline. -/
def eolCheck (s : List Char) : Option (List Char) :=
  match s with
  | [] => some []
  | c :: _ => if c = '\n' then some (c :: s.tail) else none

/-- Try the whole pattern anchored at the start of `s`; on success
return group 1 (the characters consumed before the lookahead). -/
def matchAt (s : List Char) : Option (List Char) :=
  match mch sqlPattern s eolCheck with
  | some rem => some (s.take (s.length - rem.length))
  | none => none

/-- `re.search`: try each start position left to right, return the first
(leftmost) match. -/
def reSearch : List Char → Option (List Char)
  | [] => matchAt []
  | c :: rest =>
    match matchAt (c :: rest) with
    | some m => some m
    | none => reSearch rest

example : reSearch ("no sql here".data) = none := by decide
example :
    reSearch ("SELECT * FROM products ORDER BY Price DESC LIMIT 1".data)
      = some ("SELECT * FROM products ORDER BY Price DESC LIMIT 1".data) := by decide

/-! ### Query generation (`generate_sql_query`, lines 116–169)

The call to the language model (lines 142–150) is the external-engine
boundary: its output `generated_text` is a parameter.  Everything after
it is deterministic and embedded here. -/

def pnameChars : List Char := "productname".data
def selStarChars : List Char := "SELECT *".data
def selPNameChars : List Char := "SELECT ProductName".data

/-- Lines 156–159: strip the matched text, then — only when the
lowercased user input contains `productname` and the lowercased query
does not — replace `SELECT *` with `SELECT ProductName`. -/
def finalQuery (u m : List Char) : List Char :=
  if containsL pnameChars (strLower u) && !containsL pnameChars (strLower (pyStrip m)) then
    replaceAll selStarChars selPNameChars (pyStrip m)
  else pyStrip m

def uiChars : List Char := "User Input: ".data
def gqChars : List Char := "\nGenerated Query: ".data
def nlChars : List Char := "\n".data

/-- Line 161: the entry appended to `self.queries_generated`. -/
def logEntry (u q : List Char) : List Char :=
  uiChars ++ u ++ gqChars ++ q ++ nlChars

/-- Lines 153–165 of `generate_sql_query`: search the completion text,
and on a match strip, post-process, log and return the query; on no
match return `None` with the log untouched.  The first component is the
returned value, the second the updated `queries_generated` list. -/
def generate_sql_query (u t : List Char) (lg : List (List Char)) :
    Option (List Char) × List (List Char) :=
  match reSearch t with
  | some m => (some (finalQuery u m), lg ++ [logEntry u (finalQuery u m)])
  | none => (none, lg)

/-! ### Validation and execution (`execute_query`, lines 171–184) -/

/-- Line 174: `if not query or not query.upper().startswith('SELECT')`.
`validQuery q` is true exactly when the guard does NOT fire. -/
def validQuery (q : List Char) : Bool :=
  !q.isEmpty && startsWithL kwSelect (strUpper q)

/-- `execute_query` with the store made explicit and instrumented.  The
store collaborator `db` maps a query text to `none` (the driver raised)
or to the reported column names and rows.  The result is the value
`execute_query` returns (rows shaped into column-name/value pairs as by
`dict(zip(columns, row))`, line 180) together with the list of query
texts passed to `cursor.execute` (line 178). -/
def execute_query_trace {α : Type}
    (db : List Char → Option (List (List Char) × List (List α)))
    (q : List Char) :
    Option (List (List (List Char × α))) × List (List Char) :=
  if validQuery q then
    (match db q with
     | some (cols, rows) => some (rows.map (fun row => cols.zip row))
     | none => none, [q])
  else (none, [])

/-- The value `execute_query` returns to its caller. -/
def execute_query {α : Type}
    (db : List Char → Option (List (List Char) × List (List α)))
    (q : List Char) : Option (List (List (List Char × α))) :=
  (execute_query_trace db q).1

/-! ### The per-request control flow of `main` (lines 262–280) -/

/-- Line 269: `if not results: continue`.  Both `None` and the empty
list are falsy, so the display/save menu is offered exactly when the
result is a non-empty list. -/
def resultsHandled {β : Type} : Option (List β) → Bool
  | none => false
  | some [] => false
  | some (_ :: _) => true

/-- Observable outcome of one pass through the interaction loop for a
non-empty user input. -/
structure ReqOutcome (α : Type) where
  log : List (List Char)
  query : Option (List Char)
  storeCalls : List (List Char)
  results : Option (List (List (List Char × α)))
  handled : Bool

/-- Lines 262–274: generate a query; if `None`, continue (the executor
is never reached); otherwise execute it and test the results for
falsiness before offering display/save. -/
def processRequest {α : Type}
    (db : List Char → Option (List (List Char) × List (List α)))
    (lg : List (List Char)) (u t : List Char) : ReqOutcome α :=
  match generate_sql_query u t lg with
  | (none, lg2) => ⟨lg2, none, [], none, false⟩
  | (some q, lg2) =>
    let r := execute_query_trace db q
    ⟨lg2, some q, r.2, r.1, resultsHandled r.1⟩

/-- The `queries_generated` log after a sequence of requests, each a
pair of user input and completion text. -/
def runRequests {α : Type}
    (db : List Char → Option (List (List Char) × List (List α)))
    (lg : List (List Char)) (reqs : List (List Char × List Char)) :
    List (List Char) :=
  reqs.foldl (fun acc r => (processRequest db acc r.1 r.2).log) lg

example :
    (generate_sql_query ("show me the name of the most expensive product".data)
      ("SELECT * FROM products ORDER BY Price DESC LIMIT 1".data) []).1
    = some ("SELECT * FROM products ORDER BY Price DESC LIMIT 1".data) := by decide

example :
    (generate_sql_query ("show me the ProductName of the most expensive product".data)
      ("SELECT * FROM products ORDER BY Price DESC LIMIT 1".data) []).1
    = some ("SELECT ProductName FROM products ORDER BY Price DESC LIMIT 1".data) := by decide

example : validQuery ("DROP TABLE products; SELECT * FROM products".data) = false := by decide
example : validQuery ("SELECT * FROM products; DROP TABLE products".data) = true := by decide
example :
    reSearch ("Explanation: sure.\nSELECT * FROM products ORDER BY Price DESC LIMIT 1\nDone.".data)
    = some ("SELECT * FROM products ORDER BY Price DESC LIMIT 1".data) := by decide

/-! ### The prompt (lines 119–140)

The f-string is a concatenation: a fixed head, the interpolated
`user_input`, and a fixed tail.  The literals below reproduce the
source bytes exactly, including the 12-space indentation of every
continuation line and the trailing space after `Rating,`. -/

def promptHead : List Char :=
  ("Convert this natural language query to SQL for SQLite.\n            Database table 'products' has columns: ProductID, ProductName, Category, Price, Rating, \n            ReviewCount, Stock, Discount, Brand, LaunchDate.\n            \n            Important Rules:\n            1. When asking for \"highest\" or \"most expensive\", use ORDER BY with DESC and LIMIT 1\n            2. When asking for a specific column, only select that column\n            3. Always respond with just the SQL query, nothing else\n            \n            Examples:\n            Input: Which product has the highest price?\n            Output: SELECT * FROM products ORDER BY Price DESC LIMIT 1\n            \n            Input: Show me the name of the most expensive product\n            Output: SELECT ProductName FROM products ORDER BY Price DESC LIMIT 1\n            \n            Input: Find products with price > 50\n            Output: SELECT * FROM products WHERE Price > 50\n            \n            Now convert this:\n            Input: ").data

def promptTail : List Char := ("\n            Output:").data

/-- Lines 119–140: the prompt sent to the completion engine, as a pure
function of the user's question (schema text and few-shot examples are
fixed in the literal). -/
def buildPrompt (userInput : List Char) : List Char :=
  promptHead ++ userInput ++ promptTail

/-- The ten column names of the `products` table (lines 56–67). -/
def columnNames : List (List Char) :=
  [("ProductID").data, ("ProductName").data, ("Category").data, ("Price").data,
   ("Rating").data, ("ReviewCount").data, ("Stock").data, ("Discount").data,
   ("Brand").data, ("LaunchDate").data]

/-- The three few-shot example pairs of the prompt, verbatim (each an
`Input:` line followed by its `Output:` line). -/
def fewShotTexts : List (List Char) :=
  [("Input: Which product has the highest price?\n            Output: SELECT * FROM products ORDER BY Price DESC LIMIT 1").data,
   ("Input: Show me the name of the most expensive product\n            Output: SELECT ProductName FROM products ORDER BY Price DESC LIMIT 1").data,
   ("Input: Find products with price > 50\n            Output: SELECT * FROM products WHERE Price > 50").data]

def outputCue : List Char := ("Output:").data

/-! ### CSV ingestion (`load_csv_to_sqlite`, lines 77–103)

Per row, the `Discount` field has every `%` removed when one is present
(line 79, `replace('%','')` with a one-character pattern deletes each
occurrence), and the `LaunchDate` field is re-formatted from
`DD-MM-YYYY` to `YYYY-MM-DD` when `datetime.strptime` accepts it,
falling back to the original text on `ValueError` (lines 82–85).  All
other fields are inserted verbatim. -/

def digVal (c : Char) : Nat := c.toNat - 48

/-- The day alternatives of CPython's `%d` pattern
`3[01]|[12]\d|0[1-9]|[1-9]`: a two-digit form (any two digits whose
value is 1–31 — the three two-digit alternatives together are exactly
those) tried before the one-digit form `1`–`9`; a two-digit form and
the one-digit form can never both lead to a complete parse, because the
one-digit form requires the following character to be `-` while the
two-digit form requires it to be a digit. -/
def dayCands : List Char → List (Nat × List Char)
  | a :: b :: rest =>
    (if a.isDigit && b.isDigit && decide (1 ≤ 10 * digVal a + digVal b)
        && decide (10 * digVal a + digVal b ≤ 31)
     then [(10 * digVal a + digVal b, rest)] else [])
    ++ (if a.isDigit && decide (1 ≤ digVal a) then [(digVal a, b :: rest)] else [])
  | [a] => if a.isDigit && decide (1 ≤ digVal a) then [(digVal a, [])] else []
  | [] => []

/-- The month alternatives of `%m`, pattern `1[0-2]|0[1-9]|[1-9]`:
two-digit values 1–12 before the one-digit form. -/
def monthCands : List Char → List (Nat × List Char)
  | a :: b :: rest =>
    (if a.isDigit && b.isDigit && decide (1 ≤ 10 * digVal a + digVal b)
        && decide (10 * digVal a + digVal b ≤ 12)
     then [(10 * digVal a + digVal b, rest)] else [])
    ++ (if a.isDigit && decide (1 ≤ digVal a) then [(digVal a, b :: rest)] else [])
  | [a] => if a.isDigit && decide (1 ≤ digVal a) then [(digVal a, [])] else []
  | [] => []

/-- `%Y` is exactly four digits (`\d\d\d\d`), and `strptime` requires
the whole input consumed ("unconverted data remains" otherwise), so the
year must be the entire remaining text. -/
def yearExact : List Char → Option Nat
  | [a, b, c, d] =>
    if a.isDigit && b.isDigit && c.isDigit && d.isDigit then
      some (1000 * digVal a + 100 * digVal b + 10 * digVal c + digVal d)
    else none
  | _ => none

def leapYear (y : Nat) : Bool :=
  (y % 4 == 0 && y % 100 != 0) || y % 400 == 0

def daysInMonth (m y : Nat) : Nat :=
  if m == 2 then (if leapYear y then 29 else 28)
  else if m == 4 || m == 6 || m == 9 || m == 11 then 30 else 31

/-- The `datetime(year, month, day)` range check performed after the
`strptime` pattern match: `MINYEAR = 1`, and the day must exist in the
month. -/
def validDMY (d m y : Nat) : Bool :=
  decide (1 ≤ y) && decide (1 ≤ m) && decide (m ≤ 12)
    && decide (1 ≤ d) && decide (d ≤ daysInMonth m y)

def firstSome {β γ : Type} (f : β → Option γ) : List β → Option γ
  | [] => none
  | x :: rest =>
    match f x with
    | some r => some r
    | none => firstSome f rest

/-- `datetime.strptime(s, '%d-%m-%Y')` as a parser returning
day/month/year, `none` standing for `ValueError`. -/
def parseDate (s : List Char) : Option (Nat × Nat × Nat) :=
  firstSome (fun dc =>
    match dc.2 with
    | '-' :: s2 =>
      firstSome (fun mc =>
        match mc.2 with
        | '-' :: s4 =>
          match yearExact s4 with
          | some y => if validDMY dc.1 mc.1 y then some (dc.1, mc.1, y) else none
          | none => none
        | _ => none) (monthCands s2)
    | _ => none) (dayCands s)

def digitOf (n : Nat) : Char := Char.ofNat (48 + n % 10)

/-- `%02d` for values below 100. -/
def fmt2 (n : Nat) : List Char := [digitOf (n / 10), digitOf n]

/-- `%04d` for values below 10000 (`strftime('%Y', ...)` zero-padded to
four digits; the parse above only produces four-digit years). -/
def fmt4 (n : Nat) : List Char :=
  [digitOf (n / 1000), digitOf (n / 100), digitOf (n / 10), digitOf n]

/-- `strftime('%Y-%m-%d')` on the parsed date. -/
def fmtYMD (y m d : Nat) : List Char :=
  fmt4 y ++ '-' :: fmt2 m ++ '-' :: fmt2 d

/-- Lines 82–85: convert the date format when parseable, keep the
original text otherwise. -/
def normalizeLaunchDate (s : List Char) : List Char :=
  match parseDate s with
  | some (d, m, y) => fmtYMD y m d
  | none => s

/-- Line 79: `row['Discount'].replace('%', '') if '%' in row['Discount']
else row['Discount']`; replacing a single character by the empty string
deletes each of its occurrences. -/
def normalizeDiscount (s : List Char) : List Char :=
  if containsL (['%']) s then s.filter (fun c => !(c == '%')) else s

structure CsvRow where
  pid : List Char
  pname : List Char
  category : List Char
  price : List Char
  rating : List Char
  reviewCount : List Char
  stock : List Char
  discount : List Char
  brand : List Char
  launchDate : List Char

/-- The record inserted for one CSV row (lines 77–103). -/
def ingestRow (r : CsvRow) : CsvRow :=
  { r with discount := normalizeDiscount r.discount,
           launchDate := normalizeLaunchDate r.launchDate }

/-- The list of records inserted for a CSV file (the `for row in
csv_reader` loop). -/
def load_csv_to_sqlite (rows : List CsvRow) : List CsvRow :=
  rows.map ingestRow

example : normalizeLaunchDate ("15-08-2023".data) = ("2023-08-15".data) := by decide
example : normalizeLaunchDate ("2023/08/15".data) = ("2023/08/15".data) := by decide
example : normalizeLaunchDate ("30-02-2020".data) = ("30-02-2020".data) := by decide
example : normalizeLaunchDate ("1-1-2020".data) = ("2020-01-01".data) := by decide
example : normalizeLaunchDate ("29-02-2020".data) = ("2020-02-29".data) := by decide
example : normalizeDiscount ("10%".data) = ("10".data) := by decide

/-! ### Helper lemmas -/

theorem startsWithL_map_exists {f : Char → Char} {p s : List Char}
    (h : startsWithL p (s.map f) = true) :
    ∃ s1 s2, s = s1 ++ s2 ∧ s1.map f = p := by
  induction p generalizing s with
  | nil => exact ⟨[], s, by simp⟩
  | cons x ps ih =>
    cases s with
    | nil => simp [startsWithL] at h
    | cons c cs =>
      simp only [List.map_cons, startsWithL, Bool.and_eq_true, beq_iff_eq] at h
      obtain ⟨hx, hrest⟩ := h
      obtain ⟨s1, s2, hs, hmap⟩ := ih hrest
      exact ⟨c :: s1, s2, by simp [hs], by simp [hmap, hx]⟩

theorem isPyWs_cases {c : Char} (h : isPyWs c = true) :
    c = ' ' ∨ c = '\t' ∨ c = '\n' ∨ c = '\r' ∨ c = '\x0b' ∨ c = '\x0c' := by
  simp only [isPyWs, Bool.or_eq_true, beq_iff_eq] at h
  tauto

theorem toUpper_mem_select_not_ws {c : Char}
    (h : Char.toUpper c ∈ kwSelect) : isPyWs c = false := by
  by_contra hws
  have hws2 : isPyWs c = true := by
    cases hb : isPyWs c
    · exact absurd hb hws
    · rfl
  rcases isPyWs_cases hws2 with h1 | h1 | h1 | h1 | h1 | h1 <;>
    (subst h1; revert h; decide)

theorem startsWithL_append_self (p r : List Char) :
    startsWithL p (p ++ r) = true := by
  induction p with
  | nil => rfl
  | cons x ps ih => simp [startsWithL, ih]

theorem dropWhile_append_split (p : Char → Bool) (a b : List Char) :
    a.dropWhile p ++ b = (a ++ b).dropWhile p
      ∨ (a.dropWhile p = [] ∧ (a ++ b).dropWhile p = b.dropWhile p) := by
  induction a with
  | nil => right; exact ⟨rfl, rfl⟩
  | cons x a2 ih =>
    by_cases hx : p x = true
    · simpa [List.dropWhile, hx] using ih
    · left
      have hx2 : p x = false := by
        cases hb : p x
        · rfl
        · exact absurd hb hx
      simp [List.dropWhile, hx2]

theorem dropWhile_of_head_not {p : Char → Bool} {x : Char} {s : List Char}
    (h : p x = false) : (x :: s).dropWhile p = x :: s := by
  simp [List.dropWhile, h]

/-- If `q` starts with a non-empty run of non-whitespace characters
`s1`, then `pyStrip q` still starts with `s1`: leading strip removes
nothing in front of `s1`, and trailing strip stops at the last
character of `s1` at the latest. -/
theorem pyStrip_keeps_front {s1 s2 : List Char} (hne : s1 ≠ [])
    (hws : ∀ x ∈ s1, isPyWs x = false) :
    ∃ t, pyStrip (s1 ++ s2) = s1 ++ t := by
  obtain ⟨x, s1', rfl⟩ : ∃ x s1', s1 = x :: s1' := by
    cases s1 with
    | nil => exact absurd rfl hne
    | cons x s1' => exact ⟨x, s1', rfl⟩
  have hx : isPyWs x = false := hws x (by simp)
  have hfront : ((x :: s1') ++ s2).dropWhile isPyWs = (x :: s1') ++ s2 := by
    simpa using dropWhile_of_head_not (s := s1' ++ s2) hx
  unfold pyStrip
  rw [hfront]
  have hrev : ((x :: s1') ++ s2).reverse = s2.reverse ++ (x :: s1').reverse := by
    simp
  rw [hrev]
  have hrevne : (x :: s1').reverse ≠ [] := by simp
  obtain ⟨y, ys, hy⟩ : ∃ y ys, (x :: s1').reverse = y :: ys := by
    cases hc : (x :: s1').reverse with
    | nil => exact absurd hc hrevne
    | cons y ys => exact ⟨y, ys, rfl⟩
  have hymem : y ∈ x :: s1' := by
    have hmem : y ∈ (x :: s1').reverse := by rw [hy]; simp
    exact List.mem_reverse.mp hmem
  have hyws : isPyWs y = false := hws y hymem
  have hkeep : ((x :: s1').reverse).dropWhile isPyWs = (x :: s1').reverse := by
    rw [hy]; exact dropWhile_of_head_not hyws
  rcases dropWhile_append_split isPyWs s2.reverse ((x :: s1').reverse) with hsplit | hsplit
  · refine ⟨(s2.reverse.dropWhile isPyWs).reverse, ?_⟩
    rw [← hsplit]
    simp
  · refine ⟨[], ?_⟩
    rw [hsplit.2, hkeep]
    simp

/-- The guard of line 174 in terms of the trimmed, case-folded text: a
query the code accepts has an upper-cased `SELECT` at the very front,
those six characters are not whitespace, so they survive `strip` and
the trimmed, upper-cased text starts with `SELECT` as well. -/
theorem validQuery_strip_select {q : List Char} (h : validQuery q = true) :
    startsWithL kwSelect (strUpper (pyStrip q)) = true := by
  have hsw : startsWithL kwSelect (strUpper q) = true := by
    simp only [validQuery, Bool.and_eq_true] at h
    exact h.2
  obtain ⟨s1, s2, rfl, hmap⟩ := startsWithL_map_exists (f := Char.toUpper) hsw
  have hne : s1 ≠ [] := by
    intro hnil
    rw [hnil] at hmap
    simp [kwSelect] at hmap
  have hws : ∀ x ∈ s1, isPyWs x = false := by
    intro x hx
    apply toUpper_mem_select_not_ws
    rw [← hmap]
    exact List.mem_map_of_mem Char.toUpper hx
  obtain ⟨t, ht⟩ := pyStrip_keeps_front hne hws
  rw [ht]
  unfold strUpper
  rw [List.map_append, hmap]
  exact startsWithL_append_self _ _

/-! ### C1 -/

/-- C1: every candidate whose trimmed, case-folded text does not start
with `SELECT` is rejected by the validation step of `execute_query`:
the failure value `None` is returned and no query text at all is passed
to the store, so nothing is executed — there is no bypass via leading
whitespace, comments, or mixed case, because acceptance requires the
raw upper-cased text to start with `SELECT`, which forces the trimmed
upper-cased text to start with `SELECT` too. -/
theorem execute_query_rejects_non_select {α : Type}
    (db : List Char → Option (List (List Char) × List (List α)))
    (q : List Char)
    (h : startsWithL kwSelect (strUpper (pyStrip q)) = false) :
    execute_query_trace db q = (none, []) := by
  have hv : validQuery q = false := by
    cases hb : validQuery q
    · rfl
    · rw [validQuery_strip_select hb] at h
      exact absurd h (by simp)
  simp [execute_query_trace, hv]

def dropCandidate : List Char := ("DROP TABLE products; SELECT * FROM products").data

def dbNone : List Char → Option (List (List Char) × List (List Nat)) := fun _ => none

/-- C1 witness: the chained candidate of Scenario C is rejected — the
validator's guard fires, `execute_query` returns the failure value, and
the store receives no statement, so neither clause runs. -/
theorem execute_query_rejects_non_select_case :
    startsWithL kwSelect (strUpper (pyStrip dropCandidate)) = false ∧
      execute_query_trace dbNone dropCandidate = (none, []) :=
  ⟨by decide, execute_query_rejects_non_select dbNone dropCandidate (by decide)⟩

/-! ### C2 -/

def semiChars : List Char := (";").data

def chainedCandidate : List Char := ("SELECT * FROM products; DROP TABLE products").data

/-- C2 counterexample: a candidate containing the statement separator
`;` — and hence a chained second statement — passes the validation step
of line 174, which only inspects the leading keyword; the claim that
every separator-containing candidate is rejected is therefore false. -/
theorem validation_accepts_chained_candidate :
    containsL semiChars chainedCandidate = true ∧
      validQuery chainedCandidate = true := by decide

/-- C2 amended: validation does not enforce the single-statement rule.
Any non-empty candidate whose upper-cased text starts with `SELECT`
passes validation even when it contains a statement separator, and the
full chained text is handed to the store unmodified. -/
theorem validation_ignores_statement_separators {α : Type}
    (db : List Char → Option (List (List Char) × List (List α)))
    (q : List Char)
    (_hsep : containsL semiChars q = true)
    (hsel : startsWithL kwSelect (strUpper q) = true)
    (hne : q.isEmpty = false) :
    (execute_query_trace db q).2 = [q] := by
  have hv : validQuery q = true := by
    simp [validQuery, hne, hsel]
  simp [execute_query_trace, hv]

/-- C2 amended witness: the chained candidate reaches the store whole. -/
theorem validation_ignores_statement_separators_case :
    (execute_query_trace dbNone chainedCandidate).2 = [chainedCandidate] :=
  validation_ignores_statement_separators dbNone chainedCandidate
    (by decide) (by decide) (by decide)

/-! ### C3 -/

def nameQuestion : List Char := ("show me the name of the most expensive product").data

def wildcardCompletion : List Char :=
  ("SELECT * FROM products ORDER BY Price DESC LIMIT 1").data

def rewrittenQuery : List Char :=
  ("SELECT ProductName FROM products ORDER BY Price DESC LIMIT 1").data

/-- C3 counterexample: for the question of Scenario B, which mentions
"name" but not the literal token `productname`, the extracted wildcard
query is returned unchanged — post-processing does not rewrite the
projection to `SELECT ProductName` as the claim asserts. -/
theorem wildcard_not_rewritten_for_name_question :
    (generate_sql_query nameQuestion wildcardCompletion []).1
        = some wildcardCompletion ∧
      some wildcardCompletion ≠ some rewrittenQuery := by
  constructor
  · decide
  · decide

/-- C3 amended: the wildcard-projection rewrite is keyed on the literal
token `productname` in the lower-cased question, not on general column
references.  When a query is extracted, the result is the stripped
match unchanged whenever the question lacks that token; when the
question contains the token and the stripped match does not, every
occurrence of `SELECT *` in it is replaced by `SELECT ProductName`. -/
theorem projection_rewrite_keyed_on_productname
    (u t m : List Char) (lg : List (List Char))
    (hm : reSearch t = some m) :
    (containsL pnameChars (strLower u) = false →
      (generate_sql_query u t lg).1 = some (pyStrip m)) ∧
    (containsL pnameChars (strLower u) = true →
      containsL pnameChars (strLower (pyStrip m)) = false →
      (generate_sql_query u t lg).1
        = some (replaceAll selStarChars selPNameChars (pyStrip m))) ∧
    (containsL pnameChars (strLower u) = true →
      containsL pnameChars (strLower (pyStrip m)) = true →
      (generate_sql_query u t lg).1 = some (pyStrip m)) := by
  refine ⟨fun hu => ?_, fun hu hq => ?_, fun hu hq => ?_⟩
  · simp [generate_sql_query, hm, finalQuery, hu]
  · simp [generate_sql_query, hm, finalQuery, hu, hq]
  · simp [generate_sql_query, hm, finalQuery, hu, hq]

def pnameQuestion : List Char :=
  ("show me the ProductName of the most expensive product").data

/-- C3 amended witness: with the token `ProductName` actually present
in the question, the wildcard completion of Scenario B is rewritten to
select that column. -/
theorem projection_rewrite_keyed_on_productname_case :
    (generate_sql_query pnameQuestion wildcardCompletion []).1
      = some rewrittenQuery := by
  have h := (projection_rewrite_keyed_on_productname pnameQuestion
    wildcardCompletion wildcardCompletion [] (by decide)).2.1
    (by decide) (by decide)
  rw [h]
  decide

/-! ### C4 -/

/-- If no suffix of `t` begins with a grammar match, the left-to-right
search fails. -/
theorem reSearch_none_of_no_match {t : List Char}
    (h : ∀ i, i < t.length + 1 → matchAt (t.drop i) = none) :
    reSearch t = none := by
  induction t with
  | nil =>
    have h0 := h 0 (by simp)
    simpa [reSearch] using h0
  | cons c rest ih =>
    have h0 := h 0 (by simp)
    simp only [List.drop_zero] at h0
    have hrest : reSearch rest = none := by
      apply ih
      intro i hi
      have := h (i + 1) (by simpa using hi)
      simpa using this
    simp [reSearch, h0, hrest]

/-- C4: when the completion text has no substring matching the query
grammar (no suffix of it carries a match of the extraction pattern),
`generate_sql_query` returns the failure value `None` — no candidate
query is fabricated, the log is untouched — and the interaction loop
then skips the request, so `execute_query` produces nothing and the
store is never invoked. -/
theorem no_match_means_no_query_and_no_execution {α : Type}
    (db : List Char → Option (List (List Char) × List (List α)))
    (u t : List Char) (lg : List (List Char))
    (h : ∀ i, i < t.length + 1 → matchAt (t.drop i) = none) :
    generate_sql_query u t lg = (none, lg) ∧
      (processRequest db lg u t).query = none ∧
      (processRequest db lg u t).storeCalls = [] ∧
      (processRequest db lg u t).results = none ∧
      (processRequest db lg u t).handled = false := by
  have hs : reSearch t = none := reSearch_none_of_no_match h
  have hg : generate_sql_query u t lg = (none, lg) := by
    simp [generate_sql_query, hs]
  refine ⟨hg, ?_, ?_, ?_, ?_⟩ <;> simp [processRequest, hg]

def proseText : List Char := ("I am sorry, I cannot answer this question.").data

/-- C4 witness: a completion with no query substance yields `None`, an
untouched log, and no store activity. -/
theorem no_match_means_no_query_and_no_execution_case :
    (∀ i, i < proseText.length + 1 → matchAt (proseText.drop i) = none) ∧
      generate_sql_query ([] : List Char) proseText [] = (none, []) ∧
      (processRequest dbNone [] [] proseText).storeCalls = [] :=
  ⟨by decide,
   (no_match_means_no_query_and_no_execution dbNone [] proseText [] (by decide)).1,
   (no_match_means_no_query_and_no_execution dbNone [] proseText [] (by decide)).2.2.1⟩

/-! ### C5 -/

theorem startsWithL_take (s : List Char) (n : Nat) :
    startsWithL (s.take n) s = true := by
  induction s generalizing n with
  | nil => cases n <;> rfl
  | cons c cs ih =>
    cases n with
    | zero => rfl
    | succ n2 => simp [List.take, startsWithL, ih]

/-- A successful anchored match returns a prefix of the text it was
tried on. -/
theorem matchAt_is_front {s m : List Char} (h : matchAt s = some m) :
    startsWithL m s = true := by
  unfold matchAt at h
  cases hm : mch sqlPattern s eolCheck with
  | none => rw [hm] at h; exact absurd h (by simp)
  | some rem =>
    rw [hm] at h
    have : s.take (s.length - rem.length) = m := by
      injection h
    rw [← this]
    exact startsWithL_take s _

/-- C5: extraction returns the leftmost grammar match.  Whenever the
search succeeds, there is a start position whose suffix carries exactly
the returned match as a prefix — everything after it, matched or not,
is discarded — and no earlier start position carries any match. -/
theorem reSearch_returns_leftmost_match (t m : List Char)
    (h : reSearch t = some m) :
    ∃ i, matchAt (t.drop i) = some m ∧
      startsWithL m (t.drop i) = true ∧
      ∀ j, j < i → matchAt (t.drop j) = none := by
  induction t with
  | nil =>
    refine ⟨0, ?_, ?_, ?_⟩
    · simpa [reSearch] using h
    · exact matchAt_is_front (by simpa [reSearch] using h)
    · intro j hj; omega
  | cons c rest ih =>
    by_cases h0 : matchAt (c :: rest) = none
    · have hrec : reSearch rest = some m := by
        simpa [reSearch, h0] using h
      obtain ⟨i, hi1, hi2, hi3⟩ := ih hrec
      refine ⟨i + 1, by simpa using hi1, by simpa using hi2, ?_⟩
      intro j hj
      cases j with
      | zero => simpa using h0
      | succ j2 =>
        have := hi3 j2 (by omega)
        simpa using this
    · obtain ⟨m0, hm0⟩ : ∃ m0, matchAt (c :: rest) = some m0 := by
        cases hc : matchAt (c :: rest) with
        | none => exact absurd hc h0
        | some m0 => exact ⟨m0, rfl⟩
      have hm : m0 = m := by
        have : reSearch (c :: rest) = some m0 := by simp [reSearch, hm0]
        rw [this] at h
        injection h
      subst hm
      refine ⟨0, by simpa using hm0, matchAt_is_front (by simpa using hm0), ?_⟩
      intro j hj; omega

def twoQueryText : List Char := ("SELECT A FROM t1\nSELECT B FROM t2").data

def firstQueryText : List Char := ("SELECT A FROM t1").data

/-- C5 witness: a completion holding two grammar matches — the second
starts at offset 17 — is resolved to the first one only. -/
theorem reSearch_returns_leftmost_match_case :
    reSearch twoQueryText = some firstQueryText ∧
      matchAt (twoQueryText.drop 17) = some (("SELECT B FROM t2").data) ∧
      (∃ i, matchAt (twoQueryText.drop i) = some firstQueryText ∧
        startsWithL firstQueryText (twoQueryText.drop i) = true ∧
        ∀ j, j < i → matchAt (twoQueryText.drop j) = none) :=
  ⟨by decide, by decide,
   reSearch_returns_leftmost_match twoQueryText firstQueryText (by decide)⟩

/-! ### C6 -/

/-- C6: between the validity check and execution there is no rewriting:
for every candidate that passes validation, the store receives exactly
the candidate's text, and the returned value is the store's reply
shaped row by row into column-name/value pairs. -/
theorem validated_query_passed_unmodified {α : Type}
    (db : List Char → Option (List (List Char) × List (List α)))
    (q : List Char) (hv : validQuery q = true) :
    execute_query_trace db q
      = ((db q).map (fun p => p.2.map (fun row => p.1.zip row)), [q]) := by
  cases hdb : db q with
  | none => simp [execute_query_trace, hv, hdb]
  | some p =>
    obtain ⟨cols, rows⟩ := p
    simp [execute_query_trace, hv, hdb]

def scenDQuery : List Char := ("SELECT * FROM products WHERE Price > 50").data

def scenDCols : List (List Char) := [("ProductID").data, ("Price").data]

def dbScenD : List Char → Option (List (List Char) × List (List Nat)) :=
  fun q => if q = scenDQuery then some (scenDCols, [[1, 60], [2, 99]]) else none

/-- C6 witness: Scenario D's candidate is executed verbatim and its two
store rows come back shaped and in store order. -/
theorem validated_query_passed_unmodified_case :
    execute_query_trace dbScenD scenDQuery
      = (some [[(("ProductID").data, 1), (("Price").data, 60)],
               [(("ProductID").data, 2), (("Price").data, 99)]],
         [scenDQuery]) := by
  rw [validated_query_passed_unmodified dbScenD scenDQuery (by decide)]
  decide

/-! ### C7 -/

theorem startsWithL_append_right {p a : List Char} (b : List Char)
    (h : startsWithL p a = true) : startsWithL p (a ++ b) = true := by
  induction p generalizing a with
  | nil => rfl
  | cons x ps ih =>
    cases a with
    | nil => simp [startsWithL] at h
    | cons c cs =>
      simp only [startsWithL, Bool.and_eq_true] at h
      simp [startsWithL, h.1, ih h.2]

theorem containsL_nil_pat (b : List Char) : containsL [] b = true := by
  cases b <;> simp [containsL, startsWithL]

theorem containsL_append_right (p a b : List Char)
    (h : containsL p a = true) : containsL p (a ++ b) = true := by
  induction a with
  | nil =>
    have hp : p = [] := by
      cases p with
      | nil => rfl
      | cons x ps => simp [containsL, startsWithL] at h
    rw [hp]
    exact containsL_nil_pat _
  | cons c rest ih =>
    simp only [containsL, Bool.or_eq_true] at h
    rcases h with h | h
    · have := startsWithL_append_right b h
      simp only [List.cons_append, containsL]
      simp only [List.cons_append] at this
      simp [this]
    · simp [containsL, ih h]

/-- C7: prompt construction is a pure function of the question: equal
questions give byte-identical prompts; the prompt is a fixed head, the
question, then the fixed completion-cue tail, so the question is
appended last and followed by the `Output:` cue; the head embeds every
column name of the schema and each few-shot example pair verbatim. -/
theorem prompt_build_deterministic_and_grounded (u v : List Char) :
    (u = v → buildPrompt u = buildPrompt v) ∧
    buildPrompt u = promptHead ++ (u ++ promptTail) ∧
    (∀ c, c ∈ columnNames → containsL c (buildPrompt u) = true) ∧
    (∀ e, e ∈ fewShotTexts → containsL e (buildPrompt u) = true) ∧
    containsL outputCue promptTail = true := by
  refine ⟨fun h => by rw [h], by simp [buildPrompt], ?_, ?_, by decide⟩
  · intro c hc
    have hhead : containsL c promptHead = true := by revert c hc; decide
    have hall := containsL_append_right c promptHead (u ++ promptTail) hhead
    simpa [buildPrompt] using hall
  · intro e he
    have hhead : containsL e promptHead = true := by revert e he; decide
    have hall := containsL_append_right e promptHead (u ++ promptTail) hhead
    simpa [buildPrompt] using hall

def sampleQuestion : List Char := ("Find products with price > 50").data

/-- C7 witness: at a concrete question, the prompt decomposes as head,
question, cue tail, and embeds the `ProductName` column and the first
few-shot example. -/
theorem prompt_build_deterministic_and_grounded_case :
    buildPrompt sampleQuestion = promptHead ++ (sampleQuestion ++ promptTail) ∧
      containsL (("ProductName").data) (buildPrompt sampleQuestion) = true ∧
      containsL (("Input: Which product has the highest price?\n            Output: SELECT * FROM products ORDER BY Price DESC LIMIT 1").data)
        (buildPrompt sampleQuestion) = true :=
  ⟨(prompt_build_deterministic_and_grounded sampleQuestion sampleQuestion).2.1,
   (prompt_build_deterministic_and_grounded sampleQuestion sampleQuestion).2.2.1
     (("ProductName").data) (by decide),
   (prompt_build_deterministic_and_grounded sampleQuestion sampleQuestion).2.2.2.1
     (("Input: Which product has the highest price?\n            Output: SELECT * FROM products ORDER BY Price DESC LIMIT 1").data)
     (by decide)⟩

/-! ### C8 -/

/-- C8: a validated query whose execution succeeds with zero rows makes
`execute_query` return the empty list, not the failure value `None` —
yet the interaction loop's falsiness test cannot tell the two apart:
`resultsHandled` is `false` for both, so the display/save menu is never
offered for a zero-row result. -/
theorem empty_result_conflated_with_failure {α : Type}
    (db : List Char → Option (List (List Char) × List (List α)))
    (q : List Char) (cols : List (List Char))
    (hv : validQuery q = true)
    (hdb : db q = some (cols, ([] : List (List α)))) :
    execute_query db q = some [] ∧
      (some ([] : List (List (List Char × α))) ≠ none) ∧
      resultsHandled (execute_query db q) = false ∧
      resultsHandled (none : Option (List (List (List Char × α)))) = false := by
  have hq : execute_query db q = some [] := by
    simp [execute_query, execute_query_trace, hv, hdb]
  exact ⟨hq, by simp, by rw [hq]; rfl, rfl⟩

def dbZeroRows : List Char → Option (List (List Char) × List (List Nat)) :=
  fun q => if q = scenDQuery then some (scenDCols, []) else none

/-- C8 witness: a concrete zero-row success returns the empty list and
is skipped by the loop's falsiness check. -/
theorem empty_result_conflated_with_failure_case :
    execute_query dbZeroRows scenDQuery = some [] ∧
      resultsHandled (execute_query dbZeroRows scenDQuery) = false :=
  ⟨(empty_result_conflated_with_failure dbZeroRows scenDQuery scenDCols
      (by decide) (by decide)).1,
   (empty_result_conflated_with_failure dbZeroRows scenDQuery scenDCols
      (by decide) (by decide)).2.2.1⟩

/-! ### C9 -/

theorem processRequest_log_grows {α : Type}
    (db : List Char → Option (List (List Char) × List (List α)))
    (lg : List (List Char)) (u t : List Char) :
    ∃ tail, (processRequest db lg u t).log = lg ++ tail := by
  cases hs : reSearch t with
  | none => exact ⟨[], by simp [processRequest, generate_sql_query, hs]⟩
  | some m =>
    exact ⟨[logEntry u (finalQuery u m)],
      by simp [processRequest, generate_sql_query, hs]⟩

theorem runRequests_log_grows {α : Type}
    (db : List Char → Option (List (List Char) × List (List α)))
    (reqs : List (List Char × List Char)) :
    ∀ lg, ∃ tail, runRequests db lg reqs = lg ++ tail := by
  induction reqs with
  | nil => exact fun lg => ⟨[], by simp [runRequests]⟩
  | cons r rs ih =>
    intro lg
    obtain ⟨t1, h1⟩ := processRequest_log_grows db lg r.1 r.2
    obtain ⟨t2, h2⟩ := ih ((processRequest db lg r.1 r.2).log)
    refine ⟨t1 ++ t2, ?_⟩
    have hstep : runRequests db lg (r :: rs)
        = runRequests db ((processRequest db lg r.1 r.2).log) rs := by
      simp [runRequests]
    rw [hstep, h2, h1, List.append_assoc]

/-- C9: the `queries_generated` log is append-only.  One request leaves
it unchanged when extraction fails and appends exactly the one entry
pairing the user input with the generated query when extraction
succeeds; the appended entry is fixed at extraction time — it does not
depend on the store, so rejected or failing queries are logged all the
same — and across any sequence of requests the old log stays a prefix
of the new one. -/
theorem query_log_append_only {α : Type}
    (db db2 : List Char → Option (List (List Char) × List (List α)))
    (lg : List (List Char)) (u t : List Char)
    (reqs : List (List Char × List Char)) :
    (reSearch t = none → (processRequest db lg u t).log = lg) ∧
    (∀ m, reSearch t = some m →
      (processRequest db lg u t).log = lg ++ [logEntry u (finalQuery u m)]) ∧
    (processRequest db lg u t).log = (processRequest db2 lg u t).log ∧
    (∃ tail, (processRequest db lg u t).log = lg ++ tail) ∧
    (∃ tail, runRequests db lg reqs = lg ++ tail) := by
  refine ⟨?_, ?_, ?_, processRequest_log_grows db lg u t,
    runRequests_log_grows db reqs lg⟩
  · intro hs
    simp [processRequest, generate_sql_query, hs]
  · intro m hs
    simp [processRequest, generate_sql_query, hs]
  · cases hs : reSearch t <;>
      simp [processRequest, generate_sql_query, hs]

/-- C9 witness: a concrete request against a store that always fails
still appends exactly its one entry to the log at extraction time. -/
theorem query_log_append_only_case :
    (processRequest dbNone [] (("q1").data) twoQueryText).log
      = [logEntry (("q1").data) (finalQuery (("q1").data) firstQueryText)] :=
  (query_log_append_only dbNone dbNone [] (("q1").data) twoQueryText []).2.1
    firstQueryText (by decide)

/-! ### C10 -/

theorem containsL_singleton_of_mem {c : Char} {s : List Char}
    (h : c ∈ s) : containsL [c] s = true := by
  induction s with
  | nil => simp at h
  | cons x rest ih =>
    rcases List.mem_cons.mp h with h1 | h1
    · subst h1
      simp [containsL, startsWithL]
    · simp [containsL, ih h1]

/-- C10: ingestion is best-effort on dates and unconditional on the
discount unit: a row whose `LaunchDate` does not parse as `DD-MM-YYYY`
keeps the original text verbatim, a row whose date parses is stored as
the ten-character `YYYY-MM-DD` rendering, and the stored `Discount`
never contains a `%` character. -/
theorem ingestion_best_effort_normalization (r : CsvRow) :
    (parseDate r.launchDate = none → (ingestRow r).launchDate = r.launchDate) ∧
    (∀ d m y, parseDate r.launchDate = some (d, m, y) →
      (ingestRow r).launchDate = fmtYMD y m d ∧
        ((ingestRow r).launchDate).length = 10) ∧
    ('%' ∉ (ingestRow r).discount) := by
  refine ⟨fun h => ?_, fun d m y h => ⟨?_, ?_⟩, ?_⟩
  · simp [ingestRow, normalizeLaunchDate, h]
  · simp [ingestRow, normalizeLaunchDate, h]
  · simp [ingestRow, normalizeLaunchDate, h, fmtYMD, fmt4, fmt2]
  · by_cases hc : containsL (['%']) r.discount = true
    · simp only [ingestRow, normalizeDiscount, hc, if_true]
      intro hmem
      have := (List.mem_filter.mp hmem).2
      simp at this
    · have hc2 : containsL (['%']) r.discount = false := by
        cases hb : containsL (['%']) r.discount
        · rfl
        · exact absurd hb hc
      simp only [ingestRow, normalizeDiscount, hc2, Bool.false_eq_true, if_false]
      intro hmem
      rw [containsL_singleton_of_mem hmem] at hc2
      exact absurd hc2 (by simp)

def rowParseable : CsvRow :=
  ⟨("1").data, ("Widget").data, ("Tools").data, ("9.99").data, ("4.5").data,
   ("12").data, ("3").data, ("10%").data, ("Acme").data, ("15-08-2023").data⟩

def rowUnparseable : CsvRow :=
  ⟨("2").data, ("Gadget").data, ("Tools").data, ("19.99").data, ("4.0").data,
   ("7").data, ("5").data, ("5").data, ("Acme").data, ("2023/08/15").data⟩

/-- C10 witness: a parseable `15-08-2023` is stored as `2023-08-15`
with the `%` stripped from `10%`, and an unparseable `2023/08/15` is
stored verbatim. -/
theorem ingestion_best_effort_normalization_case :
    (ingestRow rowParseable).launchDate = ("2023-08-15").data ∧
      ('%' ∉ (ingestRow rowParseable).discount) ∧
      (ingestRow rowUnparseable).launchDate = ("2023/08/15").data := by
  refine ⟨?_, (ingestion_best_effort_normalization rowParseable).2.2, ?_⟩
  · have h := ((ingestion_best_effort_normalization rowParseable).2.1
      15 8 2023 (by decide)).1
    rw [h]
    decide
  · have h := (ingestion_best_effort_normalization rowUnparseable).1 (by decide)
    rw [h]
    decide
